import Mathlib

/-!
# Verification of the amplify-backend core: construct container, output
storage strategy, output schema, and function-factory hydration.

Shallow embedding of the repository's core subsystems:

* the lazy, memoized construct-instantiation container
  (`getOrCompute` keyed by generator identity),
* the stack-metadata output storage strategy
  (`addBackendOutputEntry`) and the backend-output metadata schema,
* the function factory's hydrate-time validation
  (`resolveTimeout`, `resolveMemory`, `isWholeNumberBetweenInclusive`)
  and the esbuild banner textual transform from
  `packages/backend-function/src/factory.ts`,
* the process-wide unhandled-exception listener installation.
-/

namespace AmplifyBackend

/-! ## Construct container

Modelled from the spec: the `ConstructContainer` implementation is not
among the provided source files (only its consumer
`FunctionFactory.getInstance` and the interface declarations are), so the
container is modelled from the spec's words: an internal mapping keyed by
generator identity; on miss it invokes
`generator.generateContainerEntry(scope, secretResolver)` exactly once,
stores the result and returns it; on hit it returns the stored instance
without re-invoking the generator; if `generateContainerEntry` throws, no
partial result is cached and a subsequent call re-invokes the routine.

A generator is identified by object identity, modelled as a `Nat` tag
`id` distinct per factory instance.  Each successful invocation of the
production routine creates a fresh resource instance; instance identity
is modelled by a fresh `Nat` drawn from the container's allocator, so two
invocations never yield the same instance even for identical
configuration. -/

/-- A materialized resource instance: a fresh per-instantiation identity
plus the configuration it was built from. -/
structure Resource (C : Type) where
  instId : Nat
  config : C
deriving DecidableEq, Repr

/-- A generator (entry-generator side of a resource factory): an object
identity `id`, its hydrated configuration, and whether its production
routine throws when invoked. -/
structure Generator (C : Type) where
  id : Nat
  config : C
  fails : Bool
deriving DecidableEq, Repr

/-- Container state: the memoization cache keyed by generator identity,
the ordered log of production-routine invocations (by generator id), and
the allocator for fresh resource-instance identities. -/
structure ConstructContainer (C : Type) where
  cache : List (Nat × Resource C)
  invocations : List Nat
  nextInstId : Nat
deriving DecidableEq, Repr

/-- The container at the start of one backend synthesis. -/
def ConstructContainer.empty {C : Type} : ConstructContainer C :=
  ⟨[], [], 0⟩

/-- Modelled from the spec: `generateContainerEntry(scope, secretResolver)`
materializes one fresh resource instance, or throws.  The fresh instance
identity is supplied by the container's allocator. -/
def generateContainerEntry {C : Type} (g : Generator C) (freshId : Nat) :
    Except String (Resource C) :=
  if g.fails then .error "generateContainerEntry failed"
  else .ok ⟨freshId, g.config⟩

/-- Modelled from the spec: `ConstructContainer.getOrCompute(generator)`.
Looks up the cache by generator identity; on hit returns the stored
instance unchanged; on miss invokes the production routine once (logged),
caches the result on success, and on failure propagates the error
without caching anything. -/
def getOrCompute {C : Type} (g : Generator C) (s : ConstructContainer C) :
    Except String (Resource C) × ConstructContainer C :=
  match s.cache.find? (fun p => p.1 == g.id) with
  | some p => (.ok p.2, s)
  | none =>
    let s1 : ConstructContainer C :=
      { s with invocations := s.invocations ++ [g.id],
               nextInstId := s.nextInstId + 1 }
    match generateContainerEntry g s.nextInstId with
    | .ok r => (.ok r, { s1 with cache := s1.cache ++ [(g.id, r)] })
    | .error e => (.error e, s1)

/-! ## Output storage strategy and backend-output schema

Modelled from the spec: the implementations of
`StackMetadataBackendOutputStorageStrategy.addBackendOutputEntry` and of
`backendOutputStackMetadataSchema` are not among the provided source
files (only the test `stack_metadata_output_storage_strategy` test file
is).  They are modelled from the spec's words and the observable
behaviour asserted by that test: for each key of `entry.payload` a
template output is registered under that exact key with the payload
value as-is; then a metadata record
`{version, stackOutputs: [payload keys in insertion order]}` is appended
under `name`; the schema accepts a mapping from output-group name to
`{version: string, stackOutputs: sequence of string}` and rejects other
shapes. -/

/-- A template-safe primitive output value (string, number, boolean or
string list). -/
inductive Primitive where
  | str (s : String)
  | num (n : Int)
  | bool (b : Bool)
  | strList (ss : List String)
deriving DecidableEq, Repr

/-- `BackendOutputEntry`: a version string and a payload mapping output
keys to primitive values (insertion-ordered). -/
structure BackendOutputEntry where
  version : String
  payload : List (String × Primitive)
deriving DecidableEq, Repr

/-- Per-name stack metadata record: `{version, stackOutputs}`. -/
structure StackMetadataRecord where
  version : String
  stackOutputs : List String
deriving DecidableEq, Repr

/-- The synthesized deploy target: its outputs section and its metadata
section, both insertion-ordered. -/
structure DeployTarget where
  outputs : List (String × Primitive)
  metadata : List (String × StackMetadataRecord)
deriving DecidableEq, Repr

/-- The deploy target before any output entry is added. -/
def DeployTarget.empty : DeployTarget := ⟨[], []⟩

/-- Modelled from the spec:
`StackMetadataBackendOutputStorageStrategy.addBackendOutputEntry(name, entry)`.
Registers each payload key as a template output under that exact key
(not prefixed by `name`) with the payload value unchanged, then appends
the metadata record `{version: entry.version, stackOutputs: payload keys
in insertion order}` under `name`. -/
def addBackendOutputEntry (name : String) (entry : BackendOutputEntry)
    (t : DeployTarget) : DeployTarget :=
  { outputs := t.outputs ++ entry.payload,
    metadata :=
      t.metadata ++ [(name, ⟨entry.version, entry.payload.map Prod.fst⟩)] }

/-- A JSON-like value, the raw shape fed to the schema validator. -/
inductive Json where
  | str (s : String)
  | num (n : Int)
  | bool (b : Bool)
  | arr (xs : List Json)
  | obj (fields : List (String × Json))

/-- Serialization of one metadata record into the template's metadata
section: `{version: <string>, stackOutputs: [<string>...]}`.  The
version is emitted as a JSON string, never coerced to a number. -/
def recordToJson (r : StackMetadataRecord) : Json :=
  .obj [("version", .str r.version),
        ("stackOutputs", .arr (r.stackOutputs.map .str))]

/-- Serialization of the whole metadata section: a mapping keyed by
output-group name. -/
def metadataToJson (m : List (String × StackMetadataRecord)) : Json :=
  .obj (m.map fun p => (p.1, recordToJson p.2))

/-- Parse a JSON array expected to hold only strings; `none` when some
element is not a string. -/
def parseStrList : List Json → Option (List String)
  | [] => some []
  | .str s :: rest => (parseStrList rest).map (s :: ·)
  | _ => none

/-- Modelled from the spec: the per-record part of
`backendOutputStackMetadataSchema`: accepts an object with a string
`version` field and a `stackOutputs` array of strings; rejects unknown
shapes, a missing `version`, or non-string `stackOutputs` entries. -/
def parseRecord : Json → Except String StackMetadataRecord
  | .obj fields =>
    match fields.find? (fun p => p.1 == "version"),
          fields.find? (fun p => p.1 == "stackOutputs") with
    | some (_, .str v), some (_, .arr xs) =>
      match parseStrList xs with
      | some ss => .ok ⟨v, ss⟩
      | none => .error "stackOutputs entries must be strings"
    | _, _ => .error "record must have a string version and a stackOutputs array"
  | _ => .error "metadata record must be an object"

/-- Parse every field of the top-level metadata object. -/
def parseMetadataFields :
    List (String × Json) → Except String (List (String × StackMetadataRecord))
  | [] => .ok []
  | (n, j) :: rest => do
    let r ← parseRecord j
    let rs ← parseMetadataFields rest
    .ok ((n, r) :: rs)

/-- Modelled from the spec: `backendOutputStackMetadataSchema.parse`:
accepts only a mapping keyed by output-group name whose values are
well-formed metadata records. -/
def backendOutputStackMetadataSchemaParse :
    Json → Except String (List (String × StackMetadataRecord))
  | .obj fields => parseMetadataFields fields
  | _ => .error "metadata must be an object"

/-! ## Function factory hydration (from `packages/backend-function/src/factory.ts`)

JavaScript numbers are modelled as rationals `ℚ` (sufficient for the
finite inputs the validators inspect); the JS test `test % 1 === 0`
holds exactly when the number is an integer, i.e. when the rational's
denominator is 1. -/

/-- `isWholeNumberBetweenInclusive(test, min, max)` from factory.ts:
`min <= test && test <= max && test % 1 === 0`. -/
def isWholeNumberBetweenInclusive (t mn mx : ℚ) : Bool :=
  decide (mn ≤ t) && decide (t ≤ mx) && (t.den == 1)

/-- `FunctionFactory.resolveTimeout` from factory.ts: default 3 when
unset; otherwise require a whole number between 1 and 900 (= 60*15)
inclusive, else throw a descriptive error. -/
def resolveTimeout (timeoutSeconds : Option ℚ) : Except String ℚ :=
  let timeoutMin : ℚ := 1
  let timeoutMax : ℚ := 60 * 15
  let timeoutDefault : ℚ := 3
  match timeoutSeconds with
  | none => .ok timeoutDefault
  | some t =>
    if !(isWholeNumberBetweenInclusive t timeoutMin timeoutMax) then
      .error "timeoutSeconds must be a whole number between 1 and 900 inclusive"
    else
      .ok t

/-- `FunctionFactory.resolveMemory` from factory.ts: default 128 when
unset; otherwise require a whole number between 128 and 10240 inclusive,
else throw a descriptive error naming `memoryMB`. -/
def resolveMemory (memoryMB : Option ℚ) : Except String ℚ :=
  let memoryMin : ℚ := 128
  let memoryMax : ℚ := 10240
  let memoryDefault : ℚ := memoryMin
  match memoryMB with
  | none => .ok memoryDefault
  | some m =>
    if !(isWholeNumberBetweenInclusive m memoryMin memoryMax) then
      .error "memoryMB must be a whole number between 128 and 10240 inclusive"
    else
      .ok m

/-! ## Banner code textual transform (from `AmplifyFunction` in factory.ts)

The source reads the SSM-resolver shim file and the invoker shim file,
concatenates their contents, splits on the regex `` `${EOL}|\n|\r` ``
(with `EOL = '\n'` this splits at each `'\n'` or `'\r'`), strips from
each line the first `//` and everything after it
(`line.replace(/\/\/.*$/, '')`), and joins with the empty string.  File
contents are modelled as `List Char`. -/

/-- A line-break character for the banner split: `'\n'` or `'\r'`. -/
def isLineBreak (c : Char) : Bool :=
  c == '\n' || c == '\r'

/-- Split a character sequence at every character satisfying `p`
(separators dropped, empty pieces kept), as JS `String.split` on a
single-character alternation regex does. -/
def splitChars (p : Char → Bool) : List Char → List (List Char)
  | [] => [[]]
  | c :: cs =>
    match splitChars p cs with
    | [] => [[]]
    | l :: ls => if p c then [] :: l :: ls else (c :: l) :: ls

/-- `line.replace(/\/\/.*$/, '')`: keep the prefix of the line before
the first occurrence of `//`. -/
def stripLineComment : List Char → List Char
  | [] => []
  | c :: cs =>
    if c = '/' ∧ cs.head? = some '/' then []
    else c :: stripLineComment cs

/-- `bannerCode` from factory.ts, as a function of the contents of the
SSM-resolver shim file and the invoker shim file: concatenate, split
into lines, strip inline comments, join into a single line. -/
def bannerCode (ssmResolverContents invokeSsmResolverContents : List Char) :
    List Char :=
  ((splitChars isLineBreak
      (ssmResolverContents ++ invokeSsmResolverContents)).map
    stripLineComment).flatten

/-- The spec's description of the banner assembly, stated in its own
words for the refinement comparison: the pure textual transform of
concatenating the two shim files, splitting the concatenation into
lines, stripping comment text from each line, and joining the result
into a single line. -/
def bannerSpecTransform (ssmResolverContents invokeSsmResolverContents : List Char) :
    List Char :=
  let concatenated := ssmResolverContents ++ invokeSsmResolverContents
  let lines := splitChars isLineBreak concatenated
  let stripped := List.map stripLineComment lines
  List.flatten stripped

/-! ## Process-wide unhandled-exception listeners

Modelled from the spec: `attachUnhandledExceptionListeners` (its
implementation is not among the provided source files; only
`error_handler.test.ts` is).  The spec describes process-wide state with
an explicit guarded install-once flag: the first call installs the
`unhandledRejection` and `uncaughtException` fallback handlers, every
later call is a no-op. -/

/-- The process's listener state: listener counts for the two events and
the module-level install-once flag. -/
structure ProcessListenerState where
  unhandledRejectionCount : Nat
  uncaughtExceptionCount : Nat
  listenersAttached : Bool
deriving DecidableEq, Repr

/-- Modelled from the spec: `attachUnhandledExceptionListeners`: if the
listeners were already attached, do nothing; otherwise install one
handler for each of the two events and set the flag. -/
def attachUnhandledExceptionListeners (s : ProcessListenerState) :
    ProcessListenerState :=
  if s.listenersAttached then s
  else
    { unhandledRejectionCount := s.unhandledRejectionCount + 1,
      uncaughtExceptionCount := s.uncaughtExceptionCount + 1,
      listenersAttached := true }

/-! ## Helper lemmas -/

/-- The boolean whole-number range check holds exactly when the rational
lies in the inclusive range and is an integer. -/
theorem isWholeNumberBetweenInclusive_iff (t mn mx : ℚ) :
    isWholeNumberBetweenInclusive t mn mx = true ↔
      (mn ≤ t ∧ t ≤ mx ∧ t.den = 1) := by
  simp [isWholeNumberBetweenInclusive, and_assoc]

/-- `resolveTimeout` on a supplied value, characterized: accepted exactly
when a whole number between 1 and 900 inclusive. -/
theorem resolveTimeout_eq (t : ℚ) :
    resolveTimeout (some t) =
      if 1 ≤ t ∧ t ≤ 900 ∧ t.den = 1 then .ok t
      else .error "timeoutSeconds must be a whole number between 1 and 900 inclusive" := by
  have hmx : (60 : ℚ) * 15 = 900 := by norm_num
  by_cases h : 1 ≤ t ∧ t ≤ 900 ∧ t.den = 1
  · have hb : isWholeNumberBetweenInclusive t 1 900 = true :=
      (isWholeNumberBetweenInclusive_iff t 1 900).mpr h
    rw [if_pos h]
    simp [resolveTimeout, hmx, hb]
  · have hb : isWholeNumberBetweenInclusive t 1 900 = false := by
      rw [← Bool.not_eq_true, isWholeNumberBetweenInclusive_iff]
      exact h
    rw [if_neg h]
    simp [resolveTimeout, hmx, hb]

/-- `resolveMemory` on a supplied value, characterized: accepted exactly
when a whole number between 128 and 10240 inclusive. -/
theorem resolveMemory_eq (m : ℚ) :
    resolveMemory (some m) =
      if 128 ≤ m ∧ m ≤ 10240 ∧ m.den = 1 then .ok m
      else .error "memoryMB must be a whole number between 128 and 10240 inclusive" := by
  by_cases h : 128 ≤ m ∧ m ≤ 10240 ∧ m.den = 1
  · have hb : isWholeNumberBetweenInclusive m 128 10240 = true :=
      (isWholeNumberBetweenInclusive_iff m 128 10240).mpr h
    rw [if_pos h]
    simp [resolveMemory, hb]
  · have hb : isWholeNumberBetweenInclusive m 128 10240 = false := by
      rw [← Bool.not_eq_true, isWholeNumberBetweenInclusive_iff]
      exact h
    rw [if_neg h]
    simp [resolveMemory, hb]

/-! ## Claim theorems: function-factory hydration -/

/-- C4: hydrating a function factory given `timeoutSeconds = 0` throws a
configuration error, given `900` succeeds, given `901` throws; in
general a supplied `timeoutSeconds` is accepted exactly when it is a
whole number between 1 and 900 inclusive (defaulting to 3 when unset),
and otherwise a descriptive error is thrown. -/
theorem resolveTimeout_accepts_whole_numbers_in_range :
    resolveTimeout (some 0) =
      .error "timeoutSeconds must be a whole number between 1 and 900 inclusive" ∧
    resolveTimeout (some 900) = .ok 900 ∧
    resolveTimeout (some 901) =
      .error "timeoutSeconds must be a whole number between 1 and 900 inclusive" ∧
    resolveTimeout none = .ok 3 ∧
    ∀ t : ℚ, resolveTimeout (some t) =
      if 1 ≤ t ∧ t ≤ 900 ∧ t.den = 1 then .ok t
      else .error "timeoutSeconds must be a whole number between 1 and 900 inclusive" := by
  refine ⟨?_, ?_, ?_, rfl, resolveTimeout_eq⟩
  · rw [resolveTimeout_eq, if_neg]
    norm_num
  · rw [resolveTimeout_eq, if_pos]
    norm_num
  · rw [resolveTimeout_eq, if_neg]
    norm_num

/-- C10: hydrating a function factory resolves `memoryMB` to 128 when it
is unset; a supplied `memoryMB` is accepted exactly when it is a whole
number between 128 and 10240 inclusive, and otherwise an error naming
`memoryMB` is thrown. -/
theorem resolveMemory_accepts_whole_numbers_in_range :
    resolveMemory none = .ok 128 ∧
    (∀ m : ℚ, resolveMemory (some m) =
      if 128 ≤ m ∧ m ≤ 10240 ∧ m.den = 1 then .ok m
      else .error "memoryMB must be a whole number between 128 and 10240 inclusive") ∧
    resolveMemory (some 127) =
      .error "memoryMB must be a whole number between 128 and 10240 inclusive" ∧
    resolveMemory (some 10240) = .ok 10240 := by
  refine ⟨rfl, resolveMemory_eq, ?_, ?_⟩
  · rw [resolveMemory_eq, if_neg]
    norm_num
  · rw [resolveMemory_eq, if_pos]
    norm_num

/-! ## Claim theorems: construct container -/

/-- C1: for every container and generator not yet computed in it,
calling `getOrCompute(g)` twice returns the same resource instance; the
production routine is invoked exactly once, on the first call only (the
invocation log grows by exactly `[g.id]` on the first call), and the
second call is served from the stored entry leaving the container
unchanged. -/
theorem getOrCompute_called_twice_memoizes {C : Type} (g : Generator C)
    (s : ConstructContainer C)
    (hmiss : s.cache.find? (fun p => p.1 == g.id) = none)
    (hok : g.fails = false) :
    ∃ r : Resource C,
      (getOrCompute g s).1 = .ok r ∧
      ((getOrCompute g s).2).invocations = s.invocations ++ [g.id] ∧
      (getOrCompute g (getOrCompute g s).2).1 = .ok r ∧
      (getOrCompute g (getOrCompute g s).2).2 = (getOrCompute g s).2 := by
  refine ⟨⟨s.nextInstId, g.config⟩, ?_, ?_, ?_, ?_⟩ <;>
    simp [getOrCompute, hmiss, generateContainerEntry, hok, List.find?_append]

/-- C1 witness: instantiated at a concrete generator and the empty
container. -/
theorem getOrCompute_called_twice_memoizes_witness :
    ((ConstructContainer.empty : ConstructContainer Nat).cache.find?
        (fun p => p.1 == (Generator.mk 0 7 false).id) = none) ∧
    ((Generator.mk 0 7 false : Generator Nat).fails = false) ∧
    ∃ r : Resource Nat,
      (getOrCompute (Generator.mk 0 7 false) ConstructContainer.empty).1 = .ok r ∧
      ((getOrCompute (Generator.mk 0 7 false) ConstructContainer.empty).2).invocations =
        (ConstructContainer.empty : ConstructContainer Nat).invocations ++
          [(Generator.mk 0 7 false : Generator Nat).id] ∧
      (getOrCompute (Generator.mk 0 7 false)
        (getOrCompute (Generator.mk 0 7 false) ConstructContainer.empty).2).1 = .ok r ∧
      (getOrCompute (Generator.mk 0 7 false)
          (getOrCompute (Generator.mk 0 7 false) ConstructContainer.empty).2).2 =
        (getOrCompute (Generator.mk 0 7 false) ConstructContainer.empty).2 :=
  ⟨rfl, rfl, getOrCompute_called_twice_memoizes _ _ rfl rfl⟩

/-- C3: when the production routine throws on the first `getOrCompute`
call, the error propagates, no cache entry is retained for the
generator, and a second call with the same generator invokes the routine
again (the invocation log gains a second entry) rather than being served
from a poisoned cache. -/
theorem getOrCompute_failure_not_cached_retries {C : Type} (g : Generator C)
    (s : ConstructContainer C)
    (hmiss : s.cache.find? (fun p => p.1 == g.id) = none)
    (hfail : g.fails = true) :
    (getOrCompute g s).1 = .error "generateContainerEntry failed" ∧
    ((getOrCompute g s).2).cache = s.cache ∧
    ((getOrCompute g s).2).invocations = s.invocations ++ [g.id] ∧
    (getOrCompute g (getOrCompute g s).2).1 =
      .error "generateContainerEntry failed" ∧
    (getOrCompute g (getOrCompute g s).2).2.invocations =
      (s.invocations ++ [g.id]) ++ [g.id] := by
  refine ⟨?_, ?_, ?_, ?_, ?_⟩ <;>
    simp [getOrCompute, hmiss, generateContainerEntry, hfail]

/-- C3 witness: instantiated at a concrete failing generator and the
empty container. -/
theorem getOrCompute_failure_not_cached_retries_witness :
    ((ConstructContainer.empty : ConstructContainer Nat).cache.find?
        (fun p => p.1 == (Generator.mk 0 7 true).id) = none) ∧
    ((Generator.mk 0 7 true : Generator Nat).fails = true) ∧
    (getOrCompute (Generator.mk 0 7 true : Generator Nat)
        ConstructContainer.empty).1 = .error "generateContainerEntry failed" ∧
    ((getOrCompute (Generator.mk 0 7 true : Generator Nat)
        ConstructContainer.empty).2).cache =
      (ConstructContainer.empty : ConstructContainer Nat).cache ∧
    ((getOrCompute (Generator.mk 0 7 true : Generator Nat)
        ConstructContainer.empty).2).invocations =
      (ConstructContainer.empty : ConstructContainer Nat).invocations ++
        [(Generator.mk 0 7 true : Generator Nat).id] ∧
    (getOrCompute (Generator.mk 0 7 true)
        (getOrCompute (Generator.mk 0 7 true : Generator Nat)
          ConstructContainer.empty).2).1 =
      .error "generateContainerEntry failed" ∧
    (getOrCompute (Generator.mk 0 7 true)
        (getOrCompute (Generator.mk 0 7 true : Generator Nat)
          ConstructContainer.empty).2).2.invocations =
      ((ConstructContainer.empty : ConstructContainer Nat).invocations ++
        [(Generator.mk 0 7 true : Generator Nat).id]) ++
        [(Generator.mk 0 7 true : Generator Nat).id] := by
  have h := getOrCompute_failure_not_cached_retries
    (Generator.mk 0 7 true : Generator Nat) ConstructContainer.empty rfl rfl
  exact ⟨rfl, rfl, h.1, h.2.1, h.2.2.1, h.2.2.2.1, h.2.2.2.2⟩

/-- C6: two distinct generator instances (distinct identity keys) yield
distinct resource instances from the container, even when their
configurations are structurally identical, because memoization is keyed
by generator object identity. -/
theorem getOrCompute_distinct_generators_distinct_instances {C : Type}
    (g1 g2 : Generator C) (hne : g1.id ≠ g2.id)
    (h1 : g1.fails = false) (h2 : g2.fails = false) :
    ∃ r1 r2 : Resource C,
      (getOrCompute g1 ConstructContainer.empty).1 = .ok r1 ∧
      (getOrCompute g2 (getOrCompute g1 ConstructContainer.empty).2).1 = .ok r2 ∧
      r1 ≠ r2 := by
  have hbeq : (g1.id == g2.id) = false := by
    simp [hne]
  refine ⟨⟨0, g1.config⟩, ⟨1, g2.config⟩, ?_, ?_, ?_⟩
  · simp [getOrCompute, ConstructContainer.empty, generateContainerEntry, h1]
  · simp [getOrCompute, ConstructContainer.empty, generateContainerEntry,
      h1, h2, hbeq]
  · simp [Resource.mk.injEq]

/-- C6 witness: two concrete generators with identical configuration but
distinct identities. -/
theorem getOrCompute_distinct_generators_distinct_instances_witness :
    ((Generator.mk 0 7 false : Generator Nat).id ≠ (Generator.mk 1 7 false).id) ∧
    ((Generator.mk 0 7 false : Generator Nat).fails = false) ∧
    ((Generator.mk 1 7 false : Generator Nat).fails = false) ∧
    ∃ r1 r2 : Resource Nat,
      (getOrCompute (Generator.mk 0 7 false) ConstructContainer.empty).1 = .ok r1 ∧
      (getOrCompute (Generator.mk 1 7 false)
        (getOrCompute (Generator.mk 0 7 false) ConstructContainer.empty).2).1 = .ok r2 ∧
      r1 ≠ r2 :=
  ⟨by decide, rfl, rfl,
    getOrCompute_distinct_generators_distinct_instances
      (Generator.mk 0 7 false) (Generator.mk 1 7 false) (by decide) rfl rfl⟩

/-! ## Helper lemmas: schema round-trip -/

/-- Parsing an all-strings JSON array recovers the strings. -/
theorem parseStrList_map_str (ss : List String) :
    parseStrList (ss.map .str) = some ss := by
  induction ss with
  | nil => rfl
  | cons s rest ih => simp [parseStrList, ih]

/-- Parsing the serialization of one metadata record recovers it. -/
theorem parseRecord_recordToJson (r : StackMetadataRecord) :
    parseRecord (recordToJson r) = .ok r := by
  obtain ⟨v, ss⟩ := r
  simp [parseRecord, recordToJson, List.find?, parseStrList_map_str]

/-- Parsing the serialization of a metadata field list recovers it. -/
theorem parseMetadataFields_map (m : List (String × StackMetadataRecord)) :
    parseMetadataFields (m.map fun p => (p.1, recordToJson p.2)) = .ok m := by
  induction m with
  | nil => rfl
  | cons p rest ih =>
    simp only [List.map_cons, parseMetadataFields, parseRecord_recordToJson, ih]
    rfl

/-- Full metadata round-trip: the schema validator accepts the
serialized metadata section and reconstructs it exactly. -/
theorem parse_metadataToJson (m : List (String × StackMetadataRecord)) :
    backendOutputStackMetadataSchemaParse (metadataToJson m) = .ok m := by
  simp [backendOutputStackMetadataSchemaParse, metadataToJson,
    parseMetadataFields_map]

/-! ## Claim theorems: output storage strategy and schema -/

/-- C2: `addBackendOutputEntry(name, entry)` registers each key of
`entry.payload` as a template output under that exact key (not prefixed
by `name`) with the payload value unchanged — the outputs section is
extended by exactly the payload pairs — and the metadata under `name`
becomes `{version: entry.version, stackOutputs: the payload keys in
insertion order}`. -/
theorem addBackendOutputEntry_registers_outputs_and_metadata
    (name : String) (entry : BackendOutputEntry) (t : DeployTarget)
    (hfresh : t.metadata.find? (fun p => p.1 == name) = none) :
    (addBackendOutputEntry name entry t).outputs = t.outputs ++ entry.payload ∧
    (addBackendOutputEntry name entry t).metadata.find? (fun p => p.1 == name) =
      some (name, ⟨entry.version, entry.payload.map Prod.fst⟩) := by
  refine ⟨rfl, ?_⟩
  simp [addBackendOutputEntry, List.find?_append, hfresh]

/-- C2 witness: the spec's boundary example
`addBackendOutputEntry('X', {version: '1', payload: {something: 'special'}})`
on the empty deploy target. -/
theorem addBackendOutputEntry_registers_outputs_and_metadata_witness :
    (DeployTarget.empty.metadata.find? (fun p => p.1 == "X") = none) ∧
    (addBackendOutputEntry "X"
        ⟨"1", [("something", Primitive.str "special")]⟩ DeployTarget.empty).outputs =
      DeployTarget.empty.outputs ++ [("something", Primitive.str "special")] ∧
    (addBackendOutputEntry "X"
        ⟨"1", [("something", Primitive.str "special")]⟩ DeployTarget.empty).metadata.find?
        (fun p => p.1 == "X") =
      some ("X", ⟨"1", ([("something", Primitive.str "special")] : List (String × Primitive)).map Prod.fst⟩) :=
  ⟨rfl,
    (addBackendOutputEntry_registers_outputs_and_metadata "X"
      ⟨"1", [("something", Primitive.str "special")]⟩ DeployTarget.empty rfl).1,
    (addBackendOutputEntry_registers_outputs_and_metadata "X"
      ⟨"1", [("something", Primitive.str "special")]⟩ DeployTarget.empty rfl).2⟩

/-- C5: for every sequence of output entries written through
`addBackendOutputEntry` (starting from the empty deploy target), parsing
the serialized template metadata with the backend-output schema
validator succeeds and reconstructs the same `{version, stackOutputs}`
record for every output-group name. -/
theorem addBackendOutputEntry_schema_roundtrip
    (entries : List (String × BackendOutputEntry)) :
    backendOutputStackMetadataSchemaParse
      (metadataToJson
        ((entries.foldl (fun t p => addBackendOutputEntry p.1 p.2 t)
          DeployTarget.empty).metadata)) =
      .ok ((entries.foldl (fun t p => addBackendOutputEntry p.1 p.2 t)
        DeployTarget.empty).metadata) :=
  parse_metadataToJson _

/-- C7: a numeric-looking version string such as `'44'` is preserved as
that exact string in the template metadata — the serialized version
field is the JSON string `"44"`, not a number — and the aggregate
metadata still validates against the backend-output schema. -/
theorem version_string_not_coerced (name : String)
    (payload : List (String × Primitive)) :
    ((addBackendOutputEntry name ⟨"44", payload⟩ DeployTarget.empty).metadata.find?
        (fun p => p.1 == name)) =
      some (name, ⟨"44", payload.map Prod.fst⟩) ∧
    metadataToJson
        (addBackendOutputEntry name ⟨"44", payload⟩ DeployTarget.empty).metadata =
      .obj [(name, .obj [("version", .str "44"),
        ("stackOutputs", .arr ((payload.map Prod.fst).map .str))])] ∧
    backendOutputStackMetadataSchemaParse
        (metadataToJson
          (addBackendOutputEntry name ⟨"44", payload⟩ DeployTarget.empty).metadata) =
      .ok (addBackendOutputEntry name ⟨"44", payload⟩ DeployTarget.empty).metadata := by
  refine ⟨?_, rfl, parse_metadataToJson _⟩
  simp [addBackendOutputEntry, DeployTarget.empty]

/-! ## Helper lemmas: banner transform -/

/-- `splitChars` never returns the empty list of pieces. -/
theorem splitChars_ne_nil (p : Char → Bool) (cs : List Char) :
    splitChars p cs ≠ [] := by
  cases cs with
  | nil => exact fun h => List.noConfusion h
  | cons a as =>
    unfold splitChars
    cases splitChars p as with
    | nil => exact fun h => List.noConfusion h
    | cons l ls =>
      by_cases hp : p a
      · simp [hp]
      · simp [hp]

/-- No character of any piece returned by `splitChars` satisfies the
separator predicate. -/
theorem splitChars_no_sep (p : Char → Bool) :
    ∀ cs : List Char, ∀ l ∈ splitChars p cs, ∀ c ∈ l, p c = false := by
  intro cs
  induction cs with
  | nil =>
    intro l hl c hc
    simp only [splitChars, List.mem_singleton] at hl
    subst hl
    simp at hc
  | cons a as ih =>
    intro l hl c hc
    rw [splitChars] at hl
    rcases hsp : splitChars p as with _ | ⟨l0, ls⟩
    · exact absurd hsp (splitChars_ne_nil p as)
    · rw [hsp] at hl
      dsimp only at hl
      by_cases hp : p a
      · rw [if_pos hp] at hl
        rcases List.mem_cons.mp hl with hnil | htail
        · subst hnil
          simp at hc
        · exact ih l (hsp ▸ htail) c hc
      · rw [if_neg hp] at hl
        rcases List.mem_cons.mp hl with hhead | htail
        · subst hhead
          rcases List.mem_cons.mp hc with hca | hcl0
          · subst hca
            exact Bool.eq_false_iff.mpr hp
          · exact ih l0 (hsp ▸ List.mem_cons_self l0 ls) c hcl0
        · exact ih l (hsp ▸ List.mem_cons_of_mem l0 htail) c hc

/-- Stripping the inline comment from a line keeps only characters of
the line. -/
theorem stripLineComment_mem (l : List Char) (c : Char)
    (h : c ∈ stripLineComment l) : c ∈ l := by
  induction l with
  | nil => simp [stripLineComment] at h
  | cons a as ih =>
    rw [stripLineComment] at h
    by_cases hc : a = '/' ∧ as.head? = some '/'
    · rw [if_pos hc] at h
      simp at h
    · rw [if_neg hc] at h
      rcases List.mem_cons.mp h with hca | hrest
      · exact hca ▸ List.mem_cons_self a as
      · exact List.mem_cons_of_mem a (ih hrest)

/-! ## Claim theorem: banner code -/

/-- C8: the function variant's build-time banner equals the pure textual
transform of concatenating the SSM-resolver shim contents and the
invoker shim contents, splitting into lines, stripping comment text from
each line, and joining; and the result is a single line (contains no
line-break character).  The embedding is a pure function of the two shim
file contents, so assembling the banner performs no I/O beyond reading
those files. -/
theorem bannerCode_is_pure_textual_transform :
    ∀ ssm invoker : List Char,
      bannerCode ssm invoker = bannerSpecTransform ssm invoker ∧
      (bannerCode ssm invoker).all (fun c => !(isLineBreak c)) = true := by
  intro ssm invoker
  refine ⟨rfl, ?_⟩
  rw [List.all_eq_true]
  intro c hc
  simp only [bannerCode, List.mem_flatten] at hc
  obtain ⟨l, hl, hcl⟩ := hc
  obtain ⟨l0, hl0, rfl⟩ := List.mem_map.mp hl
  have hns := splitChars_no_sep isLineBreak _ l0 hl0 c
    (stripLineComment_mem l0 c hcl)
  simp [hns]

/-! ## Claim theorem: unhandled-exception listeners -/

/-- C9: `attachUnhandledExceptionListeners` is idempotent under repeated
installation: on a process where the listeners are not yet attached, the
first call installs one `unhandledRejection` handler and one
`uncaughtException` handler, and every subsequent call (any number of
iterations) leaves the process listener state unchanged, so the handlers
are installed exactly once per process. -/
theorem attachUnhandledExceptionListeners_install_once
    (s : ProcessListenerState) (h : s.listenersAttached = false) :
    (attachUnhandledExceptionListeners s).unhandledRejectionCount =
      s.unhandledRejectionCount + 1 ∧
    (attachUnhandledExceptionListeners s).uncaughtExceptionCount =
      s.uncaughtExceptionCount + 1 ∧
    ∀ n : Nat,
      attachUnhandledExceptionListeners^[n]
          (attachUnhandledExceptionListeners s) =
        attachUnhandledExceptionListeners s := by
  have hstep :
      attachUnhandledExceptionListeners (attachUnhandledExceptionListeners s) =
        attachUnhandledExceptionListeners s := by
    simp [attachUnhandledExceptionListeners, h]
  refine ⟨by simp [attachUnhandledExceptionListeners, h],
          by simp [attachUnhandledExceptionListeners, h], ?_⟩
  intro n
  induction n with
  | zero => rfl
  | succ k ih => rw [Function.iterate_succ_apply, hstep, ih]

/-- C9 witness: instantiated at the fresh process state. -/
theorem attachUnhandledExceptionListeners_install_once_witness :
    ((ProcessListenerState.mk 0 0 false).listenersAttached = false) ∧
    (attachUnhandledExceptionListeners
        (ProcessListenerState.mk 0 0 false)).unhandledRejectionCount = 0 + 1 ∧
    (attachUnhandledExceptionListeners
        (ProcessListenerState.mk 0 0 false)).uncaughtExceptionCount = 0 + 1 ∧
    ∀ n : Nat,
      attachUnhandledExceptionListeners^[n]
          (attachUnhandledExceptionListeners (ProcessListenerState.mk 0 0 false)) =
        attachUnhandledExceptionListeners (ProcessListenerState.mk 0 0 false) :=
  ⟨rfl, attachUnhandledExceptionListeners_install_once
    (ProcessListenerState.mk 0 0 false) rfl⟩

end AmplifyBackend
